import Mathlib

/-!
Verification of the collation/alignment engine of the t1d_data repository
(`src/dataset.py`, `src/parsers/utils.py`) against its natural-language
specification.

Shallow embedding conventions:
* A Python `datetime` is the structure `PyDateTime` (calendar fields, all `ℕ`).
* A Timeline key (`GridKey`) used by `Dataset._colate` is modelled as an
  integer number of seconds since a fixed epoch (`ℤ`), so that
  `(a - b).total_seconds()` becomes plain integer subtraction and the
  5-minute grid invariant becomes divisibility by 300 seconds.
* Python floats are modelled as `ℚ` (the computations at issue are exact on
  the rationals; non-finite floats are outside this model and noted where
  relevant).
* A Python dict keyed by timestamps is modelled either as a list of
  key/value pairs in Timeline order or, for `time_to_idx`, as the function
  `ℤ → Option ℕ` built by the same insertion loop as the code.
-/

namespace T1D

/-! ### Timestamp normalizer, `src/parsers/utils.py`

`round(dt)` returns `dt.replace(minute=dt.minute - dt.minute % 5, second=0,
microsecond=0)`.  (The historical copy in `src/utils.py` additionally calls
`.isoformat()` and does not clear microseconds; the parsers actually used by
`dataset.py` all import the `src/parsers/utils.py` version, which is the one
embedded here.) -/

structure PyDateTime where
  year : ℕ
  month : ℕ
  day : ℕ
  hour : ℕ
  minute : ℕ
  second : ℕ
  microsecond : ℕ
deriving DecidableEq, Repr

/-- Embeds `round` of `src/parsers/utils.py`: truncate to the nearest lower 5-minute
boundary, zeroing seconds and microseconds and keeping all other fields. -/
def round (dt : PyDateTime) : PyDateTime :=
  { dt with
    minute := dt.minute - dt.minute % 5
    second := 0
    microsecond := 0 }

/-! ### Key-space merge, `src/dataset.py` lines 21-29

`all_keys = sorted(list(set(list(pump.keys()) + list(watch.keys()) +
list(food.keys()))))`, then `time_to_idx[time] = idx` for
`idx, time in enumerate(all_keys)`.  Keys are seconds-since-epoch integers;
`set` + `sorted` is modelled as `dedup` followed by a sort. -/

/-- The merged, deduplicated, ascending Timeline of `Dataset._colate`. -/
def all_keys (pump watch food : List ℤ) : List ℤ :=
  ((pump ++ watch ++ food).dedup).insertionSort (· ≤ ·)

/-- One dict assignment `self.time_to_idx[time] = idx`: a later assignment
for the same key wins. -/
def dictInsert (m : ℤ → Option ℕ) (p : ℕ × ℤ) : ℤ → Option ℕ :=
  fun t => if t = p.2 then some p.1 else m t

/-- The `time_to_idx` dict built by `for idx, time in enumerate(self.times):
self.time_to_idx[time] = idx`. -/
def time_to_idx (ts : List ℤ) : ℤ → Option ℕ :=
  ts.enum.foldl dictInsert (fun _ => none)

/-- The 5-minute grid invariant on a seconds-since-epoch key: the key lies on
a 5-minute boundary (minute multiple of 5 and seconds zero) iff it is a
multiple of 300 seconds. -/
def gridAligned (k : ℤ) : Prop := k % 300 = 0

instance (k : ℤ) : Decidable (gridAligned k) := by
  unfold gridAligned
  infer_instance

/-! ### Record assembly, `src/dataset.py` lines 42-66

Source records as produced by the adapters in `src/parsers/`:
* pump (`parse_pump.get_all_data`): a dict that always carries `bg`
  (possibly `None`) and carries the bolus fields exactly when a bolus or
  basal entry hit the key;
* watch (`parse_xml.get_all_data`): `hr` plus the three activity flags;
* food (`parse_food.get_all_data`): the seven nutrition accumulators.
-/

structure BolusFields where
  bolus : ℚ
  carbs : ℚ
  food_bolus : ℚ
  corr_bolus : ℚ
deriving DecidableEq, Repr

structure PumpRecord where
  bolusFields : Option BolusFields
  bg : Option ℚ
deriving DecidableEq, Repr

structure WatchRecord where
  hr : ℚ
  running : Bool
  walking : Bool
  nordic_skiing : Bool
deriving DecidableEq, Repr

structure FoodRecord where
  calories : ℚ
  carbs : ℚ
  protein : ℚ
  fat : ℚ
  fiber : ℚ
  saturated_fat : ℚ
  sodium : ℚ
deriving DecidableEq, Repr

/-- The composite record as it stands after `src/dataset.py` lines 42-66
(before the IoB pass).  Fields that the dict may simply not contain are
`Option`-valued. -/
structure CompositeRecord where
  timestamp : ℤ
  bg : Option ℚ
  hr : Option ℚ
  running : Bool
  walking : Bool
  nordic_skiing : Bool
  bolus : ℚ
  carbs : ℚ
  food_bolus : ℚ
  corr_bolus : ℚ
  calories : Option ℚ
  protein : Option ℚ
  fat : Option ℚ
  fiber : Option ℚ
  saturated_fat : Option ℚ
  sodium : Option ℚ
deriving DecidableEq, Repr

/-- Embeds `src/dataset.py` lines 44-66 for one key: start from the pump dict (or
`{}`), layer the watch fields (defaults when the key is absent from the
watch), then `elem.update(food_data[key])` when the key is in the food dict
(an unconditional dict update, which overwrites `carbs`), then fill the
remaining defaults with `elem.get(...)`. -/
def colate_record (t : ℤ) (pump : Option PumpRecord) (watch : Option WatchRecord)
    (food : Option FoodRecord) : CompositeRecord :=
  { timestamp := t
    bg := pump.bind (fun p => p.bg)
    hr := watch.map (fun w => w.hr)
    running := (watch.map (fun w => w.running)).getD false
    walking := (watch.map (fun w => w.walking)).getD false
    nordic_skiing := (watch.map (fun w => w.nordic_skiing)).getD false
    bolus := ((pump.bind (fun p => p.bolusFields)).map (fun b => b.bolus)).getD 0
    carbs :=
      match food with
      | some f => f.carbs
      | none => ((pump.bind (fun p => p.bolusFields)).map (fun b => b.carbs)).getD 0
    food_bolus := ((pump.bind (fun p => p.bolusFields)).map (fun b => b.food_bolus)).getD 0
    corr_bolus := ((pump.bind (fun p => p.bolusFields)).map (fun b => b.corr_bolus)).getD 0
    calories := food.map (fun f => f.calories)
    protein := food.map (fun f => f.protein)
    fat := food.map (fun f => f.fat)
    fiber := food.map (fun f => f.fiber)
    saturated_fat := food.map (fun f => f.saturated_fat)
    sodium := food.map (fun f => f.sodium) }

/-! ### IoB engine, `src/dataset.py` lines 31-79

The pass iterates over the sorted Timeline; at index `i` it scans the slice
`sorted_times[max(0, i-60):i]`, keeps keys with
`(curr - prev).total_seconds() <= 300 * 60`, and sums
`iob_contribution(curr, prev, bolus)` over entries whose `bolus > 0`
(after assembly every record has a `bolus` field).  A Timeline point is the
pair of its key (seconds) and its assembled bolus amount. -/

/-- Embeds `iob_contribution(curr_dt, bolus_dt, units)` with
`min_diff = (curr_dt - bolus_dt).total_seconds() / 60` already supplied. -/
def iob_contribution (min_diff units : ℚ) : ℚ :=
  if min_diff < 15 then min_diff / 15 * units
  else if min_diff < 300 then (285 - min_diff) / 285 * units
  else 0

/-- One iteration of the inner loop of the IoB pass: the elapsed-seconds
window test, then the `bolus > 0` test, then the accumulation. -/
def iobStep (curr : ℤ) (acc : ℚ) (p : ℤ × ℚ) : ℚ :=
  if curr - p.1 ≤ 300 * 60 then
    if p.2 > 0 then acc + iob_contribution (((curr - p.1 : ℤ) : ℚ) / 60) p.2 else acc
  else acc

/-- The inner loop at Timeline index `i` with current key `curr`: fold over
the positional slice `sorted_times[max(0, i-60):i]`. -/
def iob_at (pts : List (ℤ × ℚ)) (i : ℕ) (curr : ℤ) : ℚ :=
  ((pts.take i).drop (i - 60)).foldl (iobStep curr) 0

/-- Modelled from the spec (section 4.4): the same scan but over every
earlier Timeline key, the look-back bound enforced by elapsed wall-clock
time only, with no fixed 60-entry slice.  Used to compare the code's
positional slice against the spec's stated behavior. -/
def iob_at_spec (pts : List (ℤ × ℚ)) (i : ℕ) (curr : ℤ) : ℚ :=
  (pts.take i).foldl (iobStep curr) 0

/-- The whole IoB pass (`src/dataset.py` lines 68-79): every Timeline point
receives `self.data[curr_time]['iob'] = total_iob`. -/
def colate_iob (pts : List (ℤ × ℚ)) : List (ℤ × ℚ) :=
  pts.enum.map (fun ip => (ip.2.1, iob_at pts ip.1 ip.2.1))

/-! ### Gap interpolator, `src/dataset.py` lines 81-89

`df[numeric_columns] = df[numeric_columns].interpolate(method='linear',
limit=6)` with `numeric_columns = ['bg', 'hr', 'iob']`.  pandas semantics
for `method='linear'` with the default `limit_direction='forward'`:
* values are interpolated positionally between the nearest non-missing
  neighbours (`method='linear'` ignores the index spacing);
* a missing cell with no earlier non-missing value is never filled;
* a missing cell after the last non-missing value is filled with that last
  value (`np.interp` clamps at the boundary);
* `limit=6` keeps a missing cell missing when 6 or more consecutive missing
  cells immediately precede it in the original column, so only the first 6
  cells of a longer run are filled. -/

/-- The non-missing cells of a column, paired with their positions. -/
def validPairs (xs : List (Option ℚ)) : List (ℕ × ℚ) :=
  xs.enum.filterMap (fun p => p.2.map (fun v => (p.1, v)))

/-- Position and value of the nearest non-missing cell before index `i`. -/
def lastValidBefore (xs : List (Option ℚ)) (i : ℕ) : Option (ℕ × ℚ) :=
  ((validPairs xs).filter (fun p => decide (p.1 < i))).getLast?

/-- Position and value of the nearest non-missing cell after index `i`. -/
def nextValidAfter (xs : List (Option ℚ)) (i : ℕ) : Option (ℕ × ℚ) :=
  ((validPairs xs).filter (fun p => decide (i < p.1))).head?

/-- Number of consecutive missing cells immediately before index `i` in the
original column. -/
def runBefore (xs : List (Option ℚ)) (i : ℕ) : ℕ :=
  (((xs.take i).reverse).takeWhile (fun x => x.isNone)).length

/-- One cell of `interpolate(method='linear', limit=6)`. -/
def interpCell (xs : List (Option ℚ)) (i : ℕ) (x : Option ℚ) : Option ℚ :=
  match x with
  | some v => some v
  | none =>
    match lastValidBefore xs i with
    | none => none
    | some jv =>
      if 6 ≤ runBefore xs i then none
      else
        match nextValidAfter xs i with
        | none => some jv.2
        | some kv =>
          some (jv.2 + (kv.2 - jv.2) * ((i : ℚ) - (jv.1 : ℚ)) / ((kv.1 : ℚ) - (jv.1 : ℚ)))

/-- Embeds `Series.interpolate(method='linear', limit=6)` on one column. -/
def interpolate_column (xs : List (Option ℚ)) : List (Option ℚ) :=
  xs.enum.map (fun p => interpCell xs p.1 p.2)

/-- The three numeric columns `['bg', 'hr', 'iob']` of the DataFrame. -/
structure Frame where
  bg : List (Option ℚ)
  hr : List (Option ℚ)
  iob : List (Option ℚ)
deriving DecidableEq, Repr

/-- Embeds `df[numeric_columns] = df[numeric_columns].interpolate(method='linear',
limit=6)`: column-wise interpolation of `bg`, `hr` and `iob`. -/
def interpolate_frame (f : Frame) : Frame :=
  { bg := interpolate_column f.bg
    hr := interpolate_column f.hr
    iob := interpolate_column f.iob }

/-- A 62-point Timeline spaced 60 seconds apart (so violating the 5-minute
grid, which `Dataset._colate` never checks), with a single bolus of 10 units
at its first point.  Between the first and the last point there are 60
Timeline entries, yet the elapsed time is only 61 minutes. -/
def denseTimeline : List (ℤ × ℚ) :=
  (List.range 62).map (fun k => ((60 * (k : ℤ), if k = 0 then (10 : ℚ) else 0)))

/-! ## Theorems -/

/-- Claim C9, counterexample: a timestamp whose minute is a multiple of 5 and
whose `second` field is zero but whose `microsecond` field is nonzero is not
returned unchanged — `round` zeroes the microseconds. -/
theorem round_subsecond_counterexample :
    ((⟨2024, 1, 1, 0, 5, 0, 1⟩ : PyDateTime).minute % 5 = 0
      ∧ (⟨2024, 1, 1, 0, 5, 0, 1⟩ : PyDateTime).second = 0)
    ∧ round ⟨2024, 1, 1, 0, 5, 0, 1⟩ ≠ ⟨2024, 1, 1, 0, 5, 0, 1⟩ := by
  exact ⟨⟨rfl, rfl⟩, by decide⟩

/-- Claim C9 (corrected): the normalizer is idempotent, and it returns a
timestamp unchanged exactly when the timestamp lies on the 5-minute grid
boundary with minute a multiple of 5 and both seconds AND microseconds zero
(the original claim omitted the microsecond condition);
`round (round dt) = round dt` holds for every `dt`. -/
theorem round_idempotent :
    (∀ dt : PyDateTime, dt.minute % 5 = 0 → dt.second = 0 → dt.microsecond = 0 →
      round dt = dt)
    ∧ ∀ dt : PyDateTime, round (round dt) = round dt := by
  constructor
  · rintro ⟨y, mo, d, h, m, s, us⟩ h1 h2 h3
    replace h1 : m % 5 = 0 := h1
    replace h2 : s = 0 := h2
    replace h3 : us = 0 := h3
    have hm : m - m % 5 = m := by omega
    simp [round, hm, h2, h3]
  · rintro ⟨y, mo, d, h, m, s, us⟩
    have hm : (m - m % 5) - (m - m % 5) % 5 = m - m % 5 := by omega
    simp [round, hm]

/-- Witness for C9: the aligned timestamp 00:10:00.000000 satisfies the
hypotheses and is a fixed point of `round`. -/
theorem round_idempotent_witness :
    ((⟨2024, 1, 1, 0, 10, 0, 0⟩ : PyDateTime).minute % 5 = 0
      ∧ (⟨2024, 1, 1, 0, 10, 0, 0⟩ : PyDateTime).second = 0
      ∧ (⟨2024, 1, 1, 0, 10, 0, 0⟩ : PyDateTime).microsecond = 0)
    ∧ round ⟨2024, 1, 1, 0, 10, 0, 0⟩ = ⟨2024, 1, 1, 0, 10, 0, 0⟩ :=
  ⟨⟨rfl, rfl, rfl⟩, round_idempotent.1 ⟨2024, 1, 1, 0, 10, 0, 0⟩ rfl rfl rfl⟩

/-- Claim C3, counterexample: the merge of `Dataset._colate` performs no grid
validation at all — a key of 60 seconds (minute 1, not a multiple of 5)
is accepted and lands in the Timeline; no error is raised. -/
theorem merge_misaligned_key_accepted :
    ¬ gridAligned 60 ∧ all_keys [60] [] [] = [60] := by
  exact ⟨by decide, by decide⟩

/-- Claim C3 (corrected): `Dataset._colate` never raises
`InvalidGridKeyError` (no such check exists in the code); every key supplied
by any source — grid-aligned or not — is included in the Timeline and the
run continues. -/
theorem merge_no_grid_validation (ks1 ks2 ks3 : List ℤ) (a : ℤ)
    (hmis : ¬ gridAligned a) (ha : a ∈ ks1) : a ∈ all_keys ks1 ks2 ks3 := by
  have hmem : a ∈ (ks1 ++ ks2 ++ ks3).dedup := by simp [ha]
  exact ((List.perm_insertionSort _ _).mem_iff).mpr hmem

/-- Witness for C3: the misaligned key 60 flows through the merge. -/
theorem merge_no_grid_validation_witness :
    (¬ gridAligned 60 ∧ (60:ℤ) ∈ ([60] : List ℤ))
    ∧ (60:ℤ) ∈ all_keys [60] [] [] :=
  ⟨⟨by decide, by simp⟩,
    merge_no_grid_validation [60] [] [] 60 (by decide) (by simp)⟩

/-- Claim C5, counterexample: the pump source supplies the non-default value
`carbs = 5`, the nutrition source supplies its default `carbs = 0.0`, and the
unconditional `elem.update(food_data[key])` leaves the composite with the
default `0` — a later source overwrote a real value with a default. -/
theorem colate_record_default_overwrite_counterexample :
    (((⟨some ⟨2, 5, 2, 0⟩, none⟩ : PumpRecord).bolusFields).map (fun b => b.carbs) = some 5
      ∧ (⟨100, 0, 3, 4, 0, 1, 200⟩ : FoodRecord).carbs = 0)
    ∧ (colate_record 0 (some ⟨some ⟨2, 5, 2, 0⟩, none⟩) none
        (some ⟨100, 0, 3, 4, 0, 1, 200⟩)).carbs = 0
    ∧ (5 : ℚ) ≠ 0 := by
  exact ⟨⟨rfl, rfl⟩, rfl, by norm_num⟩

/-- Claim C5 (corrected): sources are layered pump, then wearable, then
nutrition; the wearable layer writes only its own fields and the pump-only
fields `bolus`, `bg`, `food_bolus`, `corr_bolus` are never overwritten, but
the nutrition layer overwrites its whole field set unconditionally — in
particular `carbs` is always taken from the nutrition record when one is
present for the key, even when the nutrition value is the default `0.0` and
the pump value was not (so the original "never overwrite a non-default value
with a default" invariant does not hold). -/
theorem colate_record_layering (t : ℤ) (p : PumpRecord) (w : Option WatchRecord)
    (f : FoodRecord) :
    (colate_record t (some p) w (some f)).carbs = f.carbs
    ∧ (colate_record t (some p) w (some f)).bolus
        = ((p.bolusFields).map (fun b => b.bolus)).getD 0
    ∧ (colate_record t (some p) w (some f)).bg = p.bg
    ∧ (colate_record t (some p) w (some f)).food_bolus
        = ((p.bolusFields).map (fun b => b.food_bolus)).getD 0
    ∧ (colate_record t (some p) w (some f)).corr_bolus
        = ((p.bolusFields).map (fun b => b.corr_bolus)).getD 0
    ∧ (colate_record t (some p) w (some f)).hr = w.map (fun x => x.hr) :=
  ⟨rfl, rfl, rfl, rfl, rfl, rfl⟩

/-- Claim C7 (confirmed): the IoB contribution of a bolus of `u` units at
elapsed minutes `d` is `u * (d / 15)` for `0 ≤ d < 15`,
`u * ((285 - d) / 285)` for `15 ≤ d < 300` and `0` for `d ≥ 300`; the spec's
numeric examples hold, and a bolus of amount 0 contributes 0 everywhere. -/
theorem iob_contribution_spec :
    (∀ d u : ℚ, 0 ≤ d → d < 15 → iob_contribution d u = u * (d / 15))
    ∧ (∀ d u : ℚ, 15 ≤ d → d < 300 → iob_contribution d u = u * ((285 - d) / 285))
    ∧ (∀ d u : ℚ, 300 ≤ d → iob_contribution d u = 0)
    ∧ iob_contribution 10 10 = 10 * (10 / 15)
    ∧ iob_contribution 20 10 = 10 * ((285 - 20) / 285)
    ∧ iob_contribution 310 10 = 0
    ∧ ∀ d : ℚ, iob_contribution d 0 = 0 := by
  refine ⟨?_, ?_, ?_, ?_, ?_, ?_, ?_⟩
  · intro d u h0 h15
    rw [iob_contribution, if_pos h15]
    ring
  · intro d u h15 h300
    rw [iob_contribution, if_neg (not_lt.mpr h15), if_pos h300]
    ring
  · intro d u h300
    rw [iob_contribution, if_neg (by linarith), if_neg (by linarith)]
  · norm_num [iob_contribution]
  · norm_num [iob_contribution]
  · norm_num [iob_contribution]
  · intro d
    unfold iob_contribution
    split_ifs <;> ring

/-- Witness for C7: the onset branch at `d = 10`, `u = 10`. -/
theorem iob_contribution_spec_witness :
    ((0:ℚ) ≤ 10 ∧ (10:ℚ) < 15) ∧ iob_contribution 10 10 = 10 * (10 / 15) :=
  ⟨⟨by norm_num, by norm_num⟩, iob_contribution_spec.1 10 10 (by norm_num) (by norm_num)⟩

/-- Claim C10 (confirmed): on the input with a single bolus of 10 units at
time 0 and a Timeline point 290 minutes (17400 seconds) later, the IoB pass
stores `10 * ((285 - 290) / 285)`, a strictly negative value, with
`285 < 290 < 300`; the value survives interpolation unchanged — the
pipeline never clamps IoB at zero. -/
theorem iob_negative_value_not_clamped :
    colate_iob [((0:ℤ), (10:ℚ)), ((17400:ℤ), 0)]
        = [(0, 0), (17400, 10 * ((285 - 290) / 285))]
    ∧ (10 * ((285 - 290) / 285) : ℚ) < 0
    ∧ ((285:ℚ) < 290 ∧ (290:ℚ) < 300)
    ∧ interpolate_column [some (0:ℚ), some (10 * ((285 - 290) / 285))]
        = [some 0, some (10 * ((285 - 290) / 285))] := by
  refine ⟨?_, by norm_num, ⟨by norm_num, by norm_num⟩, ?_⟩
  · norm_num [colate_iob, iob_at, iobStep, iob_contribution, List.enum, List.enumFrom]
  · norm_num [interpolate_column, interpCell, List.enum, List.enumFrom]

/-- Helper: the inner IoB loop leaves the accumulator unchanged on a list
whose entries all fail the elapsed-seconds window test. -/
theorem foldl_iobStep_far (curr : ℤ) :
    ∀ (l : List (ℤ × ℚ)), (∀ p ∈ l, ¬ (curr - p.1 ≤ 300 * 60)) →
      ∀ acc : ℚ, l.foldl (iobStep curr) acc = acc := by
  intro l
  induction l with
  | nil => intro _ acc; rfl
  | cons q l ih =>
    intro h acc
    rw [List.foldl_cons]
    rw [show iobStep curr acc q = acc from by
      simp only [iobStep]
      rw [if_neg (h q (List.mem_cons_self _ _))]]
    exact ih (fun p hp => h p (List.mem_cons_of_mem _ hp)) acc

/-- Helper: the inner IoB loop leaves the accumulator unchanged on a list
whose entries all fail the `bolus > 0` test. -/
theorem foldl_iobStep_nonpos (curr : ℤ) :
    ∀ (l : List (ℤ × ℚ)), (∀ p ∈ l, ¬ (0 < p.2)) →
      ∀ acc : ℚ, l.foldl (iobStep curr) acc = acc := by
  intro l
  induction l with
  | nil => intro _ acc; rfl
  | cons q l ih =>
    intro h acc
    rw [List.foldl_cons]
    rw [show iobStep curr acc q = acc from by
      simp only [iobStep]
      split_ifs with h1 h2
      · exact absurd h2 (h q (List.mem_cons_self _ _))
      · rfl
      · rfl]
    exact ih (fun p hp => h p (List.mem_cons_of_mem _ hp)) acc

/-- Claim C4, counterexample: a source supplies a negative bolus amount of
-5 units; the IoB pass raises no error and produces an IoB value for every
Timeline point (the negative bolus simply fails the `> 0` filter). -/
theorem iob_negative_bolus_no_error :
    colate_iob [((0:ℤ), (-5:ℚ)), ((300:ℤ), 0)] = [(0, 0), (300, 0)] := by
  norm_num [colate_iob, iob_at, iobStep, List.enum, List.enumFrom]

/-- Claim C4 (corrected): the IoB computation contains no integrity check
and never aborts — it assigns an IoB value to every Timeline point whatever
the bolus amounts are, and amounts `≤ 0` (negative ones included) are
silently skipped by the `> 0` filter, so if every bolus is nonpositive every
IoB value is 0.  (Non-finite floats are outside the rational model; in the
code `NaN > 0` is false, so NaN amounts are likewise skipped, while
infinities would propagate — in no case is an error raised.) -/
theorem colate_iob_total_skips_nonpositive (pts : List (ℤ × ℚ)) :
    (colate_iob pts).map Prod.fst = pts.map Prod.fst
    ∧ ((∀ p ∈ pts, p.2 ≤ 0) → ∀ q ∈ colate_iob pts, q.2 = 0) := by
  constructor
  · unfold colate_iob
    rw [List.map_map]
    rw [show (Prod.fst ∘ fun ip : ℕ × ℤ × ℚ => (ip.2.1, iob_at pts ip.1 ip.2.1))
        = (Prod.fst ∘ Prod.snd) from rfl]
    rw [← List.map_map, List.enum_map_snd]
  · intro h q hq
    rcases List.mem_map.mp hq with ⟨ip, hip, rfl⟩
    show iob_at pts ip.1 ip.2.1 = 0
    unfold iob_at
    apply foldl_iobStep_nonpos
    intro p hp
    have hmem : p ∈ pts := List.take_subset _ _ (List.drop_subset _ _ hp)
    exact not_lt.mpr (h p hmem)

/-- Witness for C4: a run whose boluses are all nonpositive gets an all-zero
IoB column, with no abort. -/
theorem colate_iob_total_skips_nonpositive_witness :
    (∀ p ∈ ([((0:ℤ), (-5:ℚ)), ((18000:ℤ), 0)] : List (ℤ × ℚ)), p.2 ≤ 0)
    ∧ ∀ q ∈ colate_iob [((0:ℤ), (-5:ℚ)), ((18000:ℤ), 0)], q.2 = 0 := by
  have hnp : ∀ p ∈ ([((0:ℤ), (-5:ℚ)), ((18000:ℤ), 0)] : List (ℤ × ℚ)), p.2 ≤ 0 := by
    intro p hp
    fin_cases hp <;> norm_num
  exact ⟨hnp, (colate_iob_total_skips_nonpositive _).2 hnp⟩

/-- Helper: indexing into the IoB pass output evaluates `iob_at` at just
that index. -/
theorem colate_iob_getElem (pts : List (ℤ × ℚ)) (i : ℕ) :
    (colate_iob pts)[i]? = (pts[i]?).map (fun p => (p.1, iob_at pts i p.1)) := by
  simp only [colate_iob, List.getElem?_map, List.getElem?_enum]
  cases pts[i]? <;> rfl

set_option maxRecDepth 8000

/-- Claim C1, counterexample: on `denseTimeline` (keys 60 seconds apart, a
spacing the merge accepts since it never validates the grid), the bolus at
the first key is 61 minutes — well inside the 300-minute window — before the
last key, and is positive with a nonzero contribution, yet the stored IoB at
the last key is 0 because the positional slice `[max(0, i-60):i]` cuts the
scan off 60 entries back.  The elapsed-time scan mandated by the claim would
have returned 448/57. -/
theorem iob_lookback_positional_counterexample :
    denseTimeline[0]? = some (0, 10)
    ∧ ((10:ℚ) > 0 ∧ ((3660:ℤ) - 0 ≤ 300 * 60)
        ∧ iob_contribution (((3660 - 0 : ℤ) : ℚ) / 60) 10 = 448 / 57
        ∧ (448 / 57 : ℚ) ≠ 0)
    ∧ (colate_iob denseTimeline)[61]? = some (3660, 0)
    ∧ iob_at_spec denseTimeline 61 3660 = 448 / 57 := by
  refine ⟨?_, ⟨by norm_num, by norm_num, ?_, by norm_num⟩, ?_, ?_⟩
  · norm_num [denseTimeline, List.range_succ]
  · norm_num [iob_contribution]
  · rw [colate_iob_getElem]
    rw [show denseTimeline[61]? = some ((3660:ℤ), (0:ℚ)) from by
      norm_num [denseTimeline, List.range_succ]]
    simp only [Option.map_some']
    rw [show iob_at denseTimeline 61 3660 = 0 from by
      norm_num [iob_at, iobStep, iob_contribution, denseTimeline, List.range_succ]]
  · norm_num [iob_at_spec, iobStep, iob_contribution, denseTimeline, List.range_succ]

/-- Helper for C1: on a Timeline that is strictly ascending with every key
on the 5-minute grid, two keys `j ≤ k` are at least `300 * (k - j)` seconds
apart. -/
theorem grid_gap (pts : List (ℤ × ℚ))
    (hsort : (pts.map Prod.fst).Sorted (· < ·))
    (halign : ∀ p ∈ pts, gridAligned p.1) (j k : ℕ) (hjk : j ≤ k)
    (hk : k < pts.length) : pts[j].1 + 300 * ((k - j : ℕ) : ℤ) ≤ pts[k].1 := by
  revert hk
  induction k, hjk using Nat.le_induction with
  | base =>
    intro hk
    simp
  | succ k hjk ih =>
    intro hk
    have hk2 : k < pts.length := by omega
    have h2 := ih hk2
    have hlt : pts[k].1 < pts[k + 1].1 := by
      have hp := (List.pairwise_iff_getElem.mp hsort) k (k + 1)
        (by simpa using hk2) (by simpa using hk) (by omega)
      simpa using hp
    have ha1 : (300 : ℤ) ∣ pts[k].1 :=
      Int.dvd_of_emod_eq_zero (halign _ (pts.getElem_mem hk2))
    have ha2 : (300 : ℤ) ∣ pts[k + 1].1 :=
      Int.dvd_of_emod_eq_zero (halign _ (pts.getElem_mem hk))
    have hstep : pts[k].1 + 300 ≤ pts[k + 1].1 := by
      have hdvd : (300 : ℤ) ∣ (pts[k + 1].1 - pts[k].1) := dvd_sub ha2 ha1
      have hpos : 0 < pts[k + 1].1 - pts[k].1 := by omega
      have := Int.le_of_dvd hpos hdvd
      omega
    omega

/-- Claim C1 (corrected): the code bounds the IoB scan by BOTH a positional
60-entry slice and an elapsed-time test `(curr - prev).total_seconds() <=
300 * 60`.  On a Timeline satisfying the 5-minute grid invariant (strictly
ascending keys, all multiples of 300 seconds) at most 60 keys can fall
inside the 300-minute window, so the positional slice is harmless and the
scan coincides with the pure elapsed-time scan the claim describes; on a
more densely spaced Timeline, which the unvalidated merge accepts, a
qualifying bolus more than 60 entries back is silently missed (see the
counterexample). -/
theorem iob_lookback_grid_equiv (pts : List (ℤ × ℚ))
    (hsort : (pts.map Prod.fst).Sorted (· < ·))
    (halign : ∀ p ∈ pts, gridAligned p.1)
    (i : ℕ) (hi : i < pts.length) :
    iob_at pts i pts[i].1 = iob_at_spec pts i pts[i].1 := by
  unfold iob_at iob_at_spec
  conv_rhs => rw [← List.take_append_drop (i - 60) (pts.take i)]
  rw [List.foldl_append]
  rw [foldl_iobStep_far pts[i].1 ((pts.take i).take (i - 60)) ?far 0]
  intro p hp
  rcases List.mem_iff_getElem.mp hp with ⟨j, hj, hpj⟩
  have hjlen : j < i - 60 := by
    have hjl := hj
    simp [List.length_take] at hjl
    omega
  have hji : j < i := by omega
  have hjp : j < pts.length := by omega
  have hpj2 : pts[j] = p := by
    have e1 : ((pts.take i).take (i - 60))[j]? = (pts.take i)[j]? :=
      List.getElem?_take_of_lt hjlen
    have e3 : ((pts.take i).take (i - 60))[j]? = some p := by
      rw [List.getElem?_eq_getElem hj, hpj]
    rw [e1, List.getElem?_take_of_lt hji] at e3
    exact Option.some.inj ((List.getElem?_eq_getElem hjp).symm.trans e3)
  subst hpj2
  have hgap := grid_gap pts hsort halign j i (by omega) hi
  have hd : 61 ≤ i - j := by omega
  intro hc
  omega

/-- Witness for C1: a two-point grid-aligned Timeline satisfies the
hypotheses, and the sliced scan agrees with the elapsed-time scan. -/
theorem iob_lookback_grid_equiv_witness :
    ((([((0:ℤ), (10:ℚ)), ((300:ℤ), 0)] : List (ℤ × ℚ)).map Prod.fst).Sorted (· < ·)
      ∧ (∀ p ∈ ([((0:ℤ), (10:ℚ)), ((300:ℤ), 0)] : List (ℤ × ℚ)), gridAligned p.1))
    ∧ iob_at [((0:ℤ), (10:ℚ)), ((300:ℤ), 0)] 1 300
        = iob_at_spec [((0:ℤ), (10:ℚ)), ((300:ℤ), 0)] 1 300 := by
  have h1 : (([((0:ℤ), (10:ℚ)), ((300:ℤ), 0)] : List (ℤ × ℚ)).map Prod.fst).Sorted (· < ·) := by
    norm_num [List.sorted_cons]
  have h2 : ∀ p ∈ ([((0:ℤ), (10:ℚ)), ((300:ℤ), 0)] : List (ℤ × ℚ)), gridAligned p.1 := by
    intro p hp
    fin_cases hp <;> decide
  refine ⟨⟨h1, h2⟩, ?_⟩
  have h := iob_lookback_grid_equiv [((0:ℤ), (10:ℚ)), ((300:ℤ), 0)] h1 h2 1 (by norm_num)
  simpa using h

/-- Helper for C8: looking up `t` after folding dict insertions returns
`some i` when every pair carrying `t` carries index `i` and either `(i, t)`
is among the pairs or the accumulated dict already returns `some i`. -/
theorem dict_lookup_mem (i : ℕ) (t : ℤ) :
    ∀ (ps : List (ℕ × ℤ)) (m : ℤ → Option ℕ),
      (∀ p ∈ ps, p.2 = t → p.1 = i) → ((i, t) ∈ ps ∨ m t = some i) →
      ps.foldl dictInsert m t = some i := by
  intro ps
  induction ps with
  | nil =>
    intro m _ hbase
    rcases hbase with hin | hmt
    · simp at hin
    · simpa using hmt
  | cons q ps ih =>
    intro m huniq hbase
    rw [List.foldl_cons]
    apply ih
    · intro p hp he
      exact huniq p (List.mem_cons_of_mem _ hp) he
    · by_cases hq : q.2 = t
      · right
        simp only [dictInsert, if_pos hq.symm]
        rw [huniq q (List.mem_cons_self _ _) hq]
      · rcases hbase with hin | hmt
        · rcases List.mem_cons.mp hin with rfl | hin2
          · exact absurd rfl hq
          · exact Or.inl hin2
        · right
          simp only [dictInsert]
          rw [if_neg (fun e => hq e.symm)]
          exact hmt

/-- Helper for C8: on a duplicate-free Timeline the dict maps the key at
position `i` back to `i`. -/
theorem time_to_idx_getElem (ts : List ℤ) (hnd : ts.Nodup) (i : ℕ)
    (h : i < ts.length) : time_to_idx ts ts[i] = some i := by
  apply dict_lookup_mem
  · intro p hp he
    have hget : ts[p.1]? = some p.2 := List.mem_enum_iff_getElem?.mp hp
    have hlt : p.1 < ts.length := by
      rcases List.getElem?_eq_some.mp hget with ⟨hl, _⟩
      exact hl
    apply List.getElem?_inj hlt hnd
    rw [hget, he, List.getElem?_eq_getElem h]
  · left
    apply List.mem_enum_iff_getElem?.mpr
    simpa using (List.getElem?_eq_getElem h).symm

/-- Claim C8 (confirmed): the Timeline `all_keys` is exactly the set union
of the three sources' keys, duplicate-free and ascending, and `time_to_idx`
maps the key at each Timeline position back to that position. -/
theorem all_keys_timeline_spec (ks1 ks2 ks3 : List ℤ) :
    (∀ a : ℤ, a ∈ all_keys ks1 ks2 ks3 ↔ (a ∈ ks1 ∨ a ∈ ks2 ∨ a ∈ ks3))
    ∧ (all_keys ks1 ks2 ks3).Nodup
    ∧ (all_keys ks1 ks2 ks3).Sorted (· ≤ ·)
    ∧ ∀ (i : ℕ) (h : i < (all_keys ks1 ks2 ks3).length),
        time_to_idx (all_keys ks1 ks2 ks3) ((all_keys ks1 ks2 ks3)[i]) = some i := by
  have hnd : (all_keys ks1 ks2 ks3).Nodup :=
    ((List.perm_insertionSort _ _).nodup_iff).mpr (List.nodup_dedup _)
  refine ⟨?_, hnd, ?_, ?_⟩
  · intro a
    unfold all_keys
    rw [(List.perm_insertionSort _ _).mem_iff, List.mem_dedup]
    simp [or_assoc]
  · exact List.sorted_insertionSort _ _
  · intro i h
    exact time_to_idx_getElem _ hnd i h

/-- Helper: one cell of the interpolated column, via the index. -/
theorem interpolate_column_getElem (xs : List (Option ℚ)) (i : ℕ) :
    (interpolate_column xs)[i]? = (xs[i]?).map (fun x => interpCell xs i x) := by
  simp only [interpolate_column, List.getElem?_map, List.getElem?_enum]
  cases xs[i]? <;> rfl

/-- Helper: a missing cell with no earlier observed value stays missing. -/
theorem interpolate_column_leading_none (xs : List (Option ℚ)) (i : ℕ)
    (hnoprev : lastValidBefore xs i = none) (hmiss : xs[i]? = some none) :
    (interpolate_column xs)[i]? = some none := by
  rw [interpolate_column_getElem, hmiss]
  simp [interpCell, hnoprev]

/-- Helper: a bounded run of exactly 6 missing cells is fully filled with
the linear interpolation between the bounding values. -/
theorem interpolate_column_gap6 (v w : ℚ) :
    interpolate_column [some v, none, none, none, none, none, none, some w]
      = [some v, some (v + (w - v) * 1 / 7), some (v + (w - v) * 2 / 7),
         some (v + (w - v) * 3 / 7), some (v + (w - v) * 4 / 7),
         some (v + (w - v) * 5 / 7), some (v + (w - v) * 6 / 7), some w] := by
  norm_num [interpolate_column, interpCell, lastValidBefore, nextValidAfter, validPairs,
    runBefore, List.enum, List.enumFrom, List.filterMap_cons, List.reverse_cons,
    List.find?, List.filter_cons]

/-- Helper: in a bounded run of 7 missing cells the first 6 are filled and
the 7th stays missing. -/
theorem interpolate_column_gap7 (v w : ℚ) :
    interpolate_column [some v, none, none, none, none, none, none, none, some w]
      = [some v, some (v + (w - v) * 1 / 8), some (v + (w - v) * 2 / 8),
         some (v + (w - v) * 3 / 8), some (v + (w - v) * 4 / 8),
         some (v + (w - v) * 5 / 8), some (v + (w - v) * 6 / 8), none, some w] := by
  norm_num [interpolate_column, interpCell, lastValidBefore, nextValidAfter, validPairs,
    runBefore, List.enum, List.enumFrom, List.filterMap_cons, List.reverse_cons,
    List.find?, List.filter_cons]

/-- Helper: a trailing run of 7 missing cells is forward-filled with the
last observed value on its first 6 cells only. -/
theorem interpolate_column_trail7 (v : ℚ) :
    interpolate_column [some v, none, none, none, none, none, none, none]
      = [some v, some v, some v, some v, some v, some v, some v, none] := by
  norm_num [interpolate_column, interpCell, lastValidBefore, nextValidAfter, validPairs,
    runBefore, List.enum, List.enumFrom, List.filterMap_cons, List.reverse_cons,
    List.find?, List.filter_cons]

/-- Claim C2, counterexample: a run of 7 consecutive missing values bounded
on both sides by observed samples is NOT left entirely missing — the code's
`interpolate(limit=6)` fills the first 6 cells of the run in each of the
three numeric columns and leaves only the 7th missing. -/
theorem interpolate_run7_partial_fill_counterexample :
    interpolate_frame
        { bg := [some 0, none, none, none, none, none, none, none, some 8]
          hr := [some 0, none, none, none, none, none, none, none, some 8]
          iob := [some 0, none, none, none, none, none, none, none, some 8] }
      = { bg := [some 0, some 1, some 2, some 3, some 4, some 5, some 6, none, some 8]
          hr := [some 0, some 1, some 2, some 3, some 4, some 5, some 6, none, some 8]
          iob := [some 0, some 1, some 2, some 3, some 4, some 5, some 6, none, some 8] } := by
  have hcol : interpolate_column [some 0, none, none, none, none, none, none, none, some (8:ℚ)]
      = [some 0, some 1, some 2, some 3, some 4, some 5, some 6, none, some 8] := by
    norm_num [interpolate_column, interpCell, lastValidBefore, nextValidAfter, validPairs,
      runBefore, List.enum, List.enumFrom, List.filterMap_cons, List.reverse_cons,
      List.find?, List.filter_cons]
  simp only [interpolate_frame, hcol]

/-- Claim C2 (corrected): for each of the fields bg, hr and iob, a run of
exactly 6 consecutive missing values bounded on both sides is fully linearly
interpolated; a run of 7 is not left entirely missing — its first 6 cells
are filled (the forward `limit=6` of pandas caps how many consecutive
missing cells are filled, not which run lengths are eligible) and only its
last cell stays missing. -/
theorem interpolate_limit6_runs (a b c d e g : ℚ) :
    interpolate_frame
        { bg := [some a, none, none, none, none, none, none, some b]
          hr := [some c, none, none, none, none, none, none, some d]
          iob := [some e, none, none, none, none, none, none, some g] }
      = { bg := [some a, some (a + (b - a) * 1 / 7), some (a + (b - a) * 2 / 7),
            some (a + (b - a) * 3 / 7), some (a + (b - a) * 4 / 7),
            some (a + (b - a) * 5 / 7), some (a + (b - a) * 6 / 7), some b]
          hr := [some c, some (c + (d - c) * 1 / 7), some (c + (d - c) * 2 / 7),
            some (c + (d - c) * 3 / 7), some (c + (d - c) * 4 / 7),
            some (c + (d - c) * 5 / 7), some (c + (d - c) * 6 / 7), some d]
          iob := [some e, some (e + (g - e) * 1 / 7), some (e + (g - e) * 2 / 7),
            some (e + (g - e) * 3 / 7), some (e + (g - e) * 4 / 7),
            some (e + (g - e) * 5 / 7), some (e + (g - e) * 6 / 7), some g] }
    ∧ interpolate_frame
        { bg := [some a, none, none, none, none, none, none, none, some b]
          hr := [some c, none, none, none, none, none, none, none, some d]
          iob := [some e, none, none, none, none, none, none, none, some g] }
      = { bg := [some a, some (a + (b - a) * 1 / 8), some (a + (b - a) * 2 / 8),
            some (a + (b - a) * 3 / 8), some (a + (b - a) * 4 / 8),
            some (a + (b - a) * 5 / 8), some (a + (b - a) * 6 / 8), none, some b]
          hr := [some c, some (c + (d - c) * 1 / 8), some (c + (d - c) * 2 / 8),
            some (c + (d - c) * 3 / 8), some (c + (d - c) * 4 / 8),
            some (c + (d - c) * 5 / 8), some (c + (d - c) * 6 / 8), none, some d]
          iob := [some e, some (e + (g - e) * 1 / 8), some (e + (g - e) * 2 / 8),
            some (e + (g - e) * 3 / 8), some (e + (g - e) * 4 / 8),
            some (e + (g - e) * 5 / 8), some (e + (g - e) * 6 / 8), none, some g] } := by
  constructor
  · simp only [interpolate_frame, interpolate_column_gap6]
  · simp only [interpolate_frame, interpolate_column_gap7]

/-- Claim C6, counterexample: a missing run at the END of the Timeline is
not left missing — the trailing cell is forward-filled with the last
observed value in each of the three numeric columns. -/
theorem interpolate_trailing_fill_counterexample :
    interpolate_frame { bg := [some 1, none], hr := [some 1, none], iob := [some 1, none] }
      = { bg := [some 1, some 1], hr := [some 1, some 1], iob := [some 1, some 1] } := by
  have hcol : interpolate_column [some (1:ℚ), none] = [some 1, some 1] := by
    norm_num [interpolate_column, interpCell, lastValidBefore, nextValidAfter, validPairs,
      runBefore, List.enum, List.enumFrom, List.filterMap_cons, List.reverse_cons,
      List.find?, List.filter_cons]
  simp only [interpolate_frame, hcol]

/-- Claim C6 (corrected): for each of bg, hr and iob a missing value at the
Timeline's start (no earlier observed sample) stays missing regardless of
the run length, but a missing run at the Timeline's end is NOT left missing:
it is forward-filled with the last observed value, capped at 6 cells (of a
trailing run of 7, the first 6 cells are filled and the last stays
missing). -/
theorem interpolate_no_backward_extrapolation (f : Frame) (i : ℕ) (v : ℚ) :
    (lastValidBefore f.bg i = none → f.bg[i]? = some none →
      (interpolate_frame f).bg[i]? = some none)
    ∧ (lastValidBefore f.hr i = none → f.hr[i]? = some none →
      (interpolate_frame f).hr[i]? = some none)
    ∧ (lastValidBefore f.iob i = none → f.iob[i]? = some none →
      (interpolate_frame f).iob[i]? = some none)
    ∧ interpolate_frame
        { bg := [some v, none, none, none, none, none, none, none]
          hr := [some v, none, none, none, none, none, none, none]
          iob := [some v, none, none, none, none, none, none, none] }
      = { bg := [some v, some v, some v, some v, some v, some v, some v, none]
          hr := [some v, some v, some v, some v, some v, some v, some v, none]
          iob := [some v, some v, some v, some v, some v, some v, some v, none] } := by
  refine ⟨?_, ?_, ?_, ?_⟩
  · intro h1 h2
    exact interpolate_column_leading_none _ _ h1 h2
  · intro h1 h2
    exact interpolate_column_leading_none _ _ h1 h2
  · intro h1 h2
    exact interpolate_column_leading_none _ _ h1 h2
  · simp only [interpolate_frame, interpolate_column_trail7]

/-- Witness for C6: the leading missing cell of the column `[none, some 1]`
stays missing after interpolation. -/
theorem interpolate_no_backward_extrapolation_witness :
    (lastValidBefore [none, some (1:ℚ)] 0 = none
      ∧ ([none, some (1:ℚ)] : List (Option ℚ))[0]? = some none)
    ∧ (interpolate_frame
        { bg := [none, some 1], hr := [none, some 1], iob := [none, some 1] }).bg[0]?
      = some none := by
  have h1 : lastValidBefore [none, some (1:ℚ)] 0 = none := by decide
  exact ⟨⟨h1, rfl⟩,
    (interpolate_no_backward_extrapolation
      ⟨[none, some 1], [none, some 1], [none, some 1]⟩ 0 1).1 h1 rfl⟩

/-- Witness for C8: on the concrete sources `[300]`, `[0, 300]`, `[]` the
Timeline is `[0, 300]` and the lookup inverts position 0. -/
theorem all_keys_timeline_spec_witness :
    (0:ℤ) ∈ all_keys [300] [0, 300] []
    ∧ time_to_idx (all_keys [300] [0, 300] []) 0 = some 0 := by
  have h := all_keys_timeline_spec [300] [0, 300] ([] : List ℤ)
  constructor
  · exact (h.1 0).mpr (Or.inr (Or.inl (by norm_num)))
  · have hlist : all_keys [300] [0, 300] [] = [0, 300] := by decide
    have h4 := h.2.2.2 0 (by rw [hlist]; norm_num)
    simpa [hlist] using h4

end T1D
